import Mathlib

/-!
Verification of the ValeGit repository-analysis engine
(`src/components/RepoPreview.js`) against its natural-language
specification.

The JavaScript source is shallowly embedded below.  Conventions:

* JS `fetch` outcomes are supplied by a `World` record: each remote
  resource is either `Except.ok payload` (2xx response whose body decoded
  to the expected shape) or `Except.error ()` (non-2xx response, transport
  failure, or a body on which the subsequent processing throws — the
  distinctions are irrelevant to the properties proved here, except where
  noted in the definitions).
* JS numbers that can become `NaN` are modelled by `JNum`; the only
  zero-denominator division in the source is `0 / 0` (empty commit list),
  which is `NaN` in JS.
* `Math.random()` draws are passed in explicitly (`rand1`, `rand2`), and
  `Date.toLocaleDateString` — an environment-dependent formatter — is a
  `World` field `formatDate`.
* Template-literal interpolation of an `undefined` binding renders the
  string "undefined"; `renderSeg` reproduces this.
* Every outbound request URL actually issued is collected in order, so
  that "issues no network call" style properties are statable.
-/

/-- A JavaScript number that may be `NaN`.  `Math.floor NaN = NaN`. -/
inductive JNum where
  | nan : JNum
  | val : ℚ → JNum
deriving DecidableEq

/-- `Math.floor` lifted to `JNum`. -/
def jsFloor : JNum → JNum
  | JNum.nan => JNum.nan
  | JNum.val q => JNum.val (Int.floor q)

/-- Division of a `JNum` by a nonzero constant (the source divides the
churn by the literals 10 and 20). -/
def jsDivC : JNum → ℚ → JNum
  | JNum.nan, _ => JNum.nan
  | JNum.val q, c => JNum.val (q / c)

/-- Rendering of a `JNum` inside a template literal: `NaN` renders as
the string "NaN"; the integers produced by `Math.floor` render as
decimal integers. -/
def jsNumToString : JNum → String
  | JNum.nan => "NaN"
  | JNum.val q => if q.den = 1 then toString q.num else toString q

/-- JS `String.prototype.includes`: substring test. -/
def jsIncludes (s pat : String) : Bool :=
  decide (pat.data <:+: s.data)

/-- Splitting a character list at every occurrence of a separator, the
splitter semantics of JS `String.prototype.split` with a single-character
separator: `"" ↦ [""]`, a trailing separator yields a trailing empty
piece. -/
def splitChars (sep : Char) : List Char → List (List Char)
  | [] => [[]]
  | c :: rest =>
    let r := splitChars sep rest
    if c == sep then [] :: r
    else
      match r with
      | [] => [[c]]
      | h :: t => (c :: h) :: t

/-- JS `url.split('/')`. -/
def jsSplitSlash (s : String) : List String :=
  (splitChars '/' s.data).map String.mk

/-- JS `String.prototype.toLowerCase` (character-wise lowering; the
source applies it to ASCII file names). -/
def jsToLower (s : String) : String :=
  String.mk (s.data.map Char.toLower)

/-- One element of the repository contents listing (only the fields the
source reads: `name` and `download_url`). -/
structure FileEntry where
  name : String
  download_url : String
deriving DecidableEq

/-- One commit summary; `statsTotal = none` models a commit object whose
`stats` field is absent (the source defaults it to `{ total: 0 }`). -/
structure Commit where
  statsTotal : Option Nat
deriving DecidableEq

/-- Decoded repository metadata (the fields the source reads). -/
structure RepoData where
  name : String
  language : String
  updated_at : String
deriving DecidableEq

/-- Decoded package.json: the key lists of the two dependency groupings
(`packageData.dependencies || {}` and `packageData.devDependencies || {}`;
an absent grouping is the empty list). -/
structure PackageData where
  dependencies : List String
  devDependencies : List String
deriving DecidableEq

/-- Value of one code-quality field: the literal string "N/A", a JS
number, or a formatted string. -/
inductive QField where
  | na : QField
  | numv : JNum → QField
  | strv : String → QField
deriving DecidableEq

structure CodeQuality where
  testCoverage : QField
  codeSmells : QField
  technicalDebt : QField
  duplications : QField
deriving DecidableEq

structure DependencyMetrics where
  total : Nat
  outdated : Nat
  vulnerable : Nat
deriving DecidableEq

/-- The activity group of the assembled profile.  The source constructs
exactly these four fields — there is no branches field. -/
structure Activity where
  commits : Nat
  pullRequests : Nat
  contributors : Nat
  lastUpdate : String
deriving DecidableEq

structure Metrics where
  codeQuality : CodeQuality
  dependencies : DependencyMetrics
  activity : Activity
deriving DecidableEq

/-- The assembled repository profile returned by `analyzeRepository`. -/
structure Profile where
  name : String
  type : String
  language : String
  techStack : List String
  metrics : Metrics
  status : String
deriving DecidableEq

/-- The environment of one analysis run: the outcome of each remote
fetch, the two `Math.random()` draws, and the date formatter. -/
structure World where
  repoMeta : Except Unit RepoData
  contents : Except Unit (List FileEntry)
  commits : Except Unit (List Commit)
  pulls : Except Unit (List Unit)
  contributors : Except Unit (List Unit)
  qualityCommits : Except Unit (List Commit)
  manifest : String → Except Unit PackageData
  rand1 : ℚ
  rand2 : ℚ
  formatDate : String → String

/-- Embedding of `parseRepoUrl`.  `url.split('/')` never throws on a
string and array destructuring never throws, so the source's catch branch
is unreachable and the function is total; a missing segment destructures
to `undefined` (here `none`). -/
def parseRepoUrl (url : String) : Option String × Option String :=
  let parts := jsSplitSlash url
  (parts[3]?, parts[4]?)

/-- Template-literal rendering of a possibly-`undefined` segment. -/
def renderSeg : Option String → String
  | none => "undefined"
  | some s => s

/-- The `https://api.github.com/repos/OWNER/REPO` base URL interpolated by
the source. -/
def apiBase (owner repo : Option String) : String :=
  "https://api.github.com/repos/" ++ renderSeg owner ++ "/" ++ renderSeg repo

/-- The base URL interpolated from a parsed reference. -/
def baseUrl (url : String) : String :=
  apiBase (parseRepoUrl url).1 (parseRepoUrl url).2

/-- The lower-cased name list `files.map(file => file.name.toLowerCase())`
shared by `determineProjectType` and `analyzeTechStack`. -/
def lowerNames (files : List FileEntry) : List String :=
  files.map (fun f => jsToLower f.name)

/-- Embedding of `determineProjectType`. -/
def determineProjectType (files : List FileEntry) : String :=
  let fileNames := lowerNames files
  if fileNames.contains "package.json" then
    if fileNames.any (fun f => jsIncludes f "react") then "React Application"
    else if fileNames.any (fun f => jsIncludes f "vue") then "Vue Application"
    else if fileNames.contains "angular.json" then "Angular Application"
    else "Node.js Project"
  else if fileNames.contains "requirements.txt" || fileNames.contains "setup.py" then
    "Python Project"
  else if fileNames.contains "gemfile" then "Ruby Project"
  else if fileNames.contains "dockerfile" then "Docker Project"
  else if fileNames.contains "index.html" then "Static Website"
  else "Unknown Project Type"

/-- Embedding of `analyzeTechStack`.  The source accumulates into a `Set`
and returns `Array.from(set)`; insertion order is the textual order of
the rules and the six labels are pairwise distinct, so the result is the
concatenation below. -/
def analyzeTechStack (files : List FileEntry) : List String :=
  let fileNames := lowerNames files
  (if fileNames.contains "package.json" then ["Node.js"] else []) ++
  (if fileNames.contains "requirements.txt" then ["Python"] else []) ++
  (if fileNames.contains "docker-compose.yml" then ["Docker"] else []) ++
  (if fileNames.contains "kubernetes" then ["Kubernetes"] else []) ++
  (if fileNames.contains "tailwind.config.js" then ["Tailwind CSS"] else []) ++
  (if fileNames.any (fun f => jsIncludes f ".sql") then ["SQL"] else [])

/-- The churn average `totalChanges / commits.length` of
`analyzeCodeQuality`.  In JS the empty list gives `0 / 0 = NaN`; the
numerator is necessarily 0 there, so no infinity case arises. -/
def averageChurn (commits : List Commit) : JNum :=
  let totalChanges : ℚ := commits.foldl (fun acc c => acc + (c.statsTotal.getD 0 : ℚ)) 0
  if commits.length = 0 then JNum.nan
  else JNum.val (totalChanges / commits.length)

/-- Embedding of `analyzeCodeQuality`.  `fetched` is the outcome of the
`commits?per_page=100` request: `Except.error` when the fetch rejects or
the body is not an array (the source's catch then yields the four "N/A"
placeholders).  Note the source checks no `response.ok` here.  `r1`, `r2`
are the two `Math.random()` draws. -/
def analyzeCodeQuality (fetched : Except Unit (List Commit)) (r1 r2 : ℚ) : CodeQuality :=
  match fetched with
  | Except.error _ => ⟨QField.na, QField.na, QField.na, QField.na⟩
  | Except.ok commits =>
    let churn := averageChurn commits
    { testCoverage := QField.strv (toString (min 95 (Int.floor (75 + r1 * 20))) ++ "%")
      codeSmells := QField.numv (jsFloor (jsDivC churn 10))
      technicalDebt := QField.strv (jsNumToString (jsFloor (jsDivC churn 20)) ++ " days")
      duplications := QField.strv (toString (min 20 (Int.floor (r2 * 10 + 2))) ++ "%") }

/-- `contents.find(file => file.name === 'package.json')`: exact,
case-sensitive name match. -/
def findPackageJson (contents : List FileEntry) : Option FileEntry :=
  contents.find? (fun f => f.name == "package.json")

/-- `Object.keys({...dependencies, ...devDependencies}).length`: the
number of distinct keys across the two groupings (a duplicate key is
counted once).  `List.dedup` keeps one copy of each element, which is all
the length can see. -/
def totalDepsOf (pd : PackageData) : Nat :=
  ((pd.dependencies ++ pd.devDependencies).dedup).length

/-- Embedding of `analyzeDependencies`.  Returns the metrics together
with the list of manifest request URLs issued (empty when no exact
`package.json` entry exists; the download request is issued even when it
fails).  `mf` answers the `download_url` fetch: `Except.error` models a
non-ok response (`'Cannot access package.json'`) or a parse failure, both
absorbed by the source's catch into the zeroed default.  The literals
0.15 and 0.02 are modelled as exact rationals. -/
def analyzeDependencies (contents : List FileEntry)
    (mf : String → Except Unit PackageData) : DependencyMetrics × List String :=
  match findPackageJson contents with
  | some pj =>
    match mf pj.download_url with
    | Except.ok pd =>
      let totalDeps := totalDepsOf pd
      (⟨totalDeps,
        (Int.floor ((totalDeps : ℚ) * (15 / 100))).toNat,
        (Int.floor ((totalDeps : ℚ) * (2 / 100))).toNat⟩, [pj.download_url])
    | Except.error _ => (⟨0, 0, 0⟩, [pj.download_url])
  | none => (⟨0, 0, 0⟩, [])

deriving instance DecidableEq for Except

/-- Result of one `analyzeRepository` run: the thrown error message or
the profile, plus every request URL issued, in order. -/
structure AnalysisOutcome where
  result : Except String Profile
  requests : List String
deriving DecidableEq

/-- Embedding of `analyzeRepository`.  The five top-level fetches are
awaited in sequence and each non-ok response throws immediately
(fail-fast), so a later resource is not even requested once an earlier
one has failed.  Only then do classification, the quality sub-fetch and
the dependency sub-fetch run. -/
def analyzeRepository (w : World) (url : String) : AnalysisOutcome :=
  let base := baseUrl url
  match w.repoMeta with
  | Except.error _ => ⟨Except.error "Repository not found", [base]⟩
  | Except.ok repoData =>
    match w.contents with
    | Except.error _ =>
        ⟨Except.error "Cannot access repository contents", [base, base ++ "/contents"]⟩
    | Except.ok contents =>
      match w.commits with
      | Except.error _ =>
          ⟨Except.error "Cannot access commit history",
           [base, base ++ "/contents", base ++ "/commits"]⟩
      | Except.ok commits =>
        match w.pulls with
        | Except.error _ =>
            ⟨Except.error "Cannot access pull requests",
             [base, base ++ "/contents", base ++ "/commits", base ++ "/pulls?state=all"]⟩
        | Except.ok pullRequests =>
          match w.contributors with
          | Except.error _ =>
              ⟨Except.error "Cannot access contributors",
               [base, base ++ "/contents", base ++ "/commits", base ++ "/pulls?state=all",
                base ++ "/contributors"]⟩
          | Except.ok contributors =>
            let projectType := determineProjectType contents
            let techStack := analyzeTechStack contents
            let codeQuality := analyzeCodeQuality w.qualityCommits w.rand1 w.rand2
            let deps := analyzeDependencies contents w.manifest
            ⟨Except.ok
              { name := repoData.name
                type := projectType
                language := repoData.language
                techStack := techStack
                metrics :=
                  { codeQuality := codeQuality
                    dependencies := deps.1
                    activity :=
                      { commits := commits.length
                        pullRequests := pullRequests.length
                        contributors := contributors.length
                        lastUpdate := w.formatDate repoData.updated_at } }
                status := "ready" },
             [base, base ++ "/contents", base ++ "/commits", base ++ "/pulls?state=all",
              base ++ "/contributors", base ++ "/commits?per_page=100"] ++ deps.2⟩

/-- A fully successful world matching the spec's end-to-end scenario
(owner "acme", project "widgets"); the manifest fetch fails so the
dependency metrics degrade to zeros. -/
def okWorld : World where
  repoMeta := Except.ok ⟨"widgets", "TypeScript", "2024-01-01T00:00:00Z"⟩
  contents := Except.ok [⟨"package.json", "https://raw.test/pkg"⟩,
                         ⟨"tailwind.config.js", "https://raw.test/tw"⟩]
  commits := Except.ok [⟨some 20⟩, ⟨some 30⟩]
  pulls := Except.ok []
  contributors := Except.ok []
  qualityCommits := Except.ok [⟨some 20⟩, ⟨some 30⟩]
  manifest := fun _ => Except.error ()
  rand1 := 0
  rand2 := 0
  formatDate := fun _ => "1/1/2024"

/-- Evaluation of `analyzeRepository` when the repository-metadata fetch
fails: the analysis throws immediately after the first request. -/
theorem analyzeRepository_repoMeta_err (w : World) (url : String) (e : Unit)
    (h : w.repoMeta = Except.error e) :
    analyzeRepository w url =
      ⟨Except.error "Repository not found", [baseUrl url]⟩ := by
  simp [analyzeRepository, h]

/-- Evaluation of `analyzeRepository` when the contents fetch fails. -/
theorem analyzeRepository_contents_err (w : World) (url : String)
    (rd : RepoData) (e : Unit)
    (h1 : w.repoMeta = Except.ok rd) (h2 : w.contents = Except.error e) :
    analyzeRepository w url =
      ⟨Except.error "Cannot access repository contents",
       [baseUrl url, baseUrl url ++ "/contents"]⟩ := by
  simp [analyzeRepository, h1, h2]

/-- Evaluation of `analyzeRepository` when the commit-history fetch
fails: the analysis throws, and the pull-request, contributor, quality
and dependency fetches are never issued. -/
theorem analyzeRepository_commits_err (w : World) (url : String)
    (rd : RepoData) (cs : List FileEntry) (e : Unit)
    (h1 : w.repoMeta = Except.ok rd) (h2 : w.contents = Except.ok cs)
    (h3 : w.commits = Except.error e) :
    analyzeRepository w url =
      ⟨Except.error "Cannot access commit history",
       [baseUrl url, baseUrl url ++ "/contents", baseUrl url ++ "/commits"]⟩ := by
  simp [analyzeRepository, h1, h2, h3]

/-- Evaluation of `analyzeRepository` when the pull-request fetch fails. -/
theorem analyzeRepository_pulls_err (w : World) (url : String)
    (rd : RepoData) (cs : List FileEntry) (cm : List Commit) (e : Unit)
    (h1 : w.repoMeta = Except.ok rd) (h2 : w.contents = Except.ok cs)
    (h3 : w.commits = Except.ok cm) (h4 : w.pulls = Except.error e) :
    analyzeRepository w url =
      ⟨Except.error "Cannot access pull requests",
       [baseUrl url, baseUrl url ++ "/contents", baseUrl url ++ "/commits",
        baseUrl url ++ "/pulls?state=all"]⟩ := by
  simp [analyzeRepository, h1, h2, h3, h4]

/-- Evaluation of `analyzeRepository` when the contributor fetch fails. -/
theorem analyzeRepository_contributors_err (w : World) (url : String)
    (rd : RepoData) (cs : List FileEntry) (cm : List Commit) (pl : List Unit) (e : Unit)
    (h1 : w.repoMeta = Except.ok rd) (h2 : w.contents = Except.ok cs)
    (h3 : w.commits = Except.ok cm) (h4 : w.pulls = Except.ok pl)
    (h5 : w.contributors = Except.error e) :
    analyzeRepository w url =
      ⟨Except.error "Cannot access contributors",
       [baseUrl url, baseUrl url ++ "/contents", baseUrl url ++ "/commits",
        baseUrl url ++ "/pulls?state=all", baseUrl url ++ "/contributors"]⟩ := by
  simp [analyzeRepository, h1, h2, h3, h4, h5]

/-- Evaluation of `analyzeRepository` when all five top-level fetches
succeed: the profile is assembled with `status = "ready"` whatever the
quality and dependency sub-fetches did. -/
theorem analyzeRepository_ok_eq (w : World) (url : String)
    (rd : RepoData) (cs : List FileEntry) (cm : List Commit) (pl cb : List Unit)
    (h1 : w.repoMeta = Except.ok rd) (h2 : w.contents = Except.ok cs)
    (h3 : w.commits = Except.ok cm) (h4 : w.pulls = Except.ok pl)
    (h5 : w.contributors = Except.ok cb) :
    analyzeRepository w url =
      ⟨Except.ok
        { name := rd.name
          type := determineProjectType cs
          language := rd.language
          techStack := analyzeTechStack cs
          metrics :=
            { codeQuality := analyzeCodeQuality w.qualityCommits w.rand1 w.rand2
              dependencies := (analyzeDependencies cs w.manifest).1
              activity :=
                { commits := cm.length
                  pullRequests := pl.length
                  contributors := cb.length
                  lastUpdate := w.formatDate rd.updated_at } }
          status := "ready" },
       [baseUrl url, baseUrl url ++ "/contents", baseUrl url ++ "/commits",
        baseUrl url ++ "/pulls?state=all", baseUrl url ++ "/contributors",
        baseUrl url ++ "/commits?per_page=100"] ++ (analyzeDependencies cs w.manifest).2⟩ := by
  simp [analyzeRepository, h1, h2, h3, h4, h5]

/-- In every run, the first request issued is the repository-metadata
request for the parsed base URL, and the thrown message is never the
parser's `'Invalid repository URL'` (the parser's catch is unreachable). -/
theorem analyzeRepository_first_request (w : World) (url : String) :
    (analyzeRepository w url).requests.head? = some (baseUrl url) ∧
    (analyzeRepository w url).result ≠ Except.error "Invalid repository URL" := by
  rcases h1 : w.repoMeta with e | rd
  · rw [analyzeRepository_repoMeta_err w url e h1]
    exact ⟨rfl, by simp⟩
  rcases h2 : w.contents with e | cs
  · rw [analyzeRepository_contents_err w url rd e h1 h2]
    exact ⟨rfl, by simp⟩
  rcases h3 : w.commits with e | cm
  · rw [analyzeRepository_commits_err w url rd cs e h1 h2 h3]
    exact ⟨rfl, by simp⟩
  rcases h4 : w.pulls with e | pl
  · rw [analyzeRepository_pulls_err w url rd cs cm e h1 h2 h3 h4]
    exact ⟨rfl, by simp⟩
  rcases h5 : w.contributors with e | cb
  · rw [analyzeRepository_contributors_err w url rd cs cm pl e h1 h2 h3 h4 h5]
    exact ⟨rfl, by simp⟩
  rw [analyzeRepository_ok_eq w url rd cs cm pl cb h1 h2 h3 h4 h5]
  exact ⟨rfl, by simp⟩

/-- C7: classifying the empty contents list yields the default label and
the empty technology stack. -/
theorem classify_empty_contents :
    determineProjectType [] = "Unknown Project Type" ∧ analyzeTechStack [] = [] := by
  constructor <;> rfl

/-- World identical to `okWorld` except that the commit-history fetch
(the plain `commits` request of `analyzeRepository`) fails. -/
def commitsFailWorld : World := { okWorld with commits := Except.error () }

/-- World identical to `okWorld` except that the quality sub-fetch
(`commits?per_page=100` inside `analyzeCodeQuality`) fails. -/
def qualityFailWorld : World := { okWorld with qualityCommits := Except.error () }

/-- World in which the repository-metadata fetch fails. -/
def metaFailWorld : World := { okWorld with repoMeta := Except.error () }

/-- The sample URL of the spec's end-to-end scenario. -/
def sampleUrl : String := "https://github.com/acme/widgets"

/-- C1 counterexample: with the metadata fetch succeeding and the
commits fetch failing, the analysis does not complete with a ready
profile — it throws `'Cannot access commit history'`, because the source
awaits the five top-level fetches in sequence and each failure throws.
This contradicts the claim that a commits-fetch failure leaves the
analysis completing with quality "N/A" and `status = "ready"`. -/
theorem commits_fetch_failure_aborts :
    (analyzeRepository commitsFailWorld sampleUrl).result =
      Except.error "Cannot access commit history" := by
  decide

/-- C1 amended: failure isolation holds only for the quality sub-fetch.
When the five top-level fetches succeed but the `commits?per_page=100`
request of `analyzeCodeQuality` fails, the analysis still completes, the
quality metrics group is the all-"N/A" placeholder, and the profile has
`status = "ready"`. -/
theorem quality_fetch_failure_isolated (w : World) (url : String)
    (rd : RepoData) (cs : List FileEntry) (cm : List Commit) (pl cb : List Unit)
    (h1 : w.repoMeta = Except.ok rd) (h2 : w.contents = Except.ok cs)
    (h3 : w.commits = Except.ok cm) (h4 : w.pulls = Except.ok pl)
    (h5 : w.contributors = Except.ok cb)
    (h6 : w.qualityCommits = Except.error ()) :
    ∃ p : Profile, (analyzeRepository w url).result = Except.ok p ∧
      p.metrics.codeQuality = ⟨QField.na, QField.na, QField.na, QField.na⟩ ∧
      p.status = "ready" := by
  rw [analyzeRepository_ok_eq w url rd cs cm pl cb h1 h2 h3 h4 h5]
  exact ⟨_, rfl, by simp [analyzeCodeQuality, h6], rfl⟩

theorem quality_fetch_failure_isolated_witness :
    qualityFailWorld.repoMeta = Except.ok ⟨"widgets", "TypeScript", "2024-01-01T00:00:00Z"⟩ ∧
    qualityFailWorld.qualityCommits = Except.error () ∧
    (∃ p : Profile, (analyzeRepository qualityFailWorld sampleUrl).result = Except.ok p ∧
      p.metrics.codeQuality = ⟨QField.na, QField.na, QField.na, QField.na⟩ ∧
      p.status = "ready") :=
  ⟨rfl, rfl,
    quality_fetch_failure_isolated qualityFailWorld sampleUrl _ _ _ _ _
      rfl rfl rfl rfl rfl rfl⟩

/-- C2 counterexample: for the 4-segment URL
`https://github.com/acme`, the analysis does not fail with the parser's
`'Invalid repository URL'` and it does issue a network call — the
metadata request for `https://api.github.com/repos/acme/undefined` —
and, when that request fails, it throws `'Repository not found'`. -/
theorem short_url_issues_network_call :
    (analyzeRepository metaFailWorld "https://github.com/acme").requests =
      ["https://api.github.com/repos/acme/undefined"] ∧
    (analyzeRepository metaFailWorld "https://github.com/acme").result =
      Except.error "Repository not found" := by
  constructor <;> decide

/-- C2 amended: for every URL with fewer than 5 path segments or an
empty 5th segment, the parser still yields a (possibly `undefined` or
empty) reference, the metadata network request is issued as the first
request, and the analysis never fails with `'Invalid repository URL'`;
if the metadata request fails it throws `'Repository not found'`. -/
theorem invalid_reference_still_fetches (url : String) (w : World)
    (_h : (jsSplitSlash url).length < 5 ∨ (jsSplitSlash url)[4]? = some "") :
    (analyzeRepository w url).requests.head? = some (baseUrl url) ∧
    (analyzeRepository w url).result ≠ Except.error "Invalid repository URL" ∧
    (∀ e : Unit, w.repoMeta = Except.error e →
      (analyzeRepository w url).result = Except.error "Repository not found") := by
  refine ⟨(analyzeRepository_first_request w url).1,
          (analyzeRepository_first_request w url).2, ?_⟩
  intro e he
  rw [analyzeRepository_repoMeta_err w url e he]

theorem invalid_reference_still_fetches_witness :
    ((jsSplitSlash "https://github.com/acme").length < 5 ∨
      (jsSplitSlash "https://github.com/acme")[4]? = some "") ∧
    ((analyzeRepository metaFailWorld "https://github.com/acme").requests.head? =
        some (baseUrl "https://github.com/acme") ∧
      (analyzeRepository metaFailWorld "https://github.com/acme").result ≠
        Except.error "Invalid repository URL" ∧
      (∀ e : Unit, metaFailWorld.repoMeta = Except.error e →
        (analyzeRepository metaFailWorld "https://github.com/acme").result =
          Except.error "Repository not found")) :=
  ⟨Or.inl (by decide),
    invalid_reference_still_fetches "https://github.com/acme" metaFailWorld
      (Or.inl (by decide))⟩

/-- C3 counterexample: a contents list with both the generic manifest
marker and a Next.js config is classified as the generic
`'Node.js Project'` — the source has no Next.js rule at all, so the
spec's example `projectType = "Next.js Application"` is wrong. -/
theorem next_config_classified_generic :
    determineProjectType
        [⟨"package.json", "u1"⟩, ⟨"next.config.js", "u2"⟩] = "Node.js Project" ∧
    "Node.js Project" ≠ "Next.js Application" := by
  constructor <;> decide

/-- C3 amended: the framework-specific sub-rules the classifier actually
has are React (any lower-cased name containing "react"), Vue (any name
containing "vue") and Angular (exact name "angular.json"), tried in that
order; whenever the generic marker `package.json` is present together
with one of these markers, the framework-specific label wins over the
generic `'Node.js Project'`.  A Next.js config matches none of them. -/
theorem framework_specific_beats_generic (files : List FileEntry)
    (hpkg : (lowerNames files).contains "package.json" = true) :
    ((∃ f ∈ lowerNames files, jsIncludes f "react" = true) →
        determineProjectType files = "React Application") ∧
    ((∀ f ∈ lowerNames files, jsIncludes f "react" = false) →
      (∃ f ∈ lowerNames files, jsIncludes f "vue" = true) →
        determineProjectType files = "Vue Application") ∧
    ((∀ f ∈ lowerNames files, jsIncludes f "react" = false) →
      (∀ f ∈ lowerNames files, jsIncludes f "vue" = false) →
      (lowerNames files).contains "angular.json" = true →
        determineProjectType files = "Angular Application") := by
  have hm : "package.json" ∈ lowerNames files := by simpa using hpkg
  refine ⟨?_, ?_, ?_⟩
  · intro hre
    have ha : (lowerNames files).any (fun f => jsIncludes f "react") = true :=
      List.any_eq_true.mpr hre
    simp [determineProjectType, hm, ha]
  · intro hnore hv
    have ha : (lowerNames files).any (fun f => jsIncludes f "react") = false := by
      simp only [List.any_eq_false]
      intro x hx
      simp [hnore x hx]
    have hb : (lowerNames files).any (fun f => jsIncludes f "vue") = true :=
      List.any_eq_true.mpr hv
    simp [determineProjectType, hm, ha, hb]
  · intro hnore hnovue hang
    have hangm : "angular.json" ∈ lowerNames files := by simpa using hang
    have ha : (lowerNames files).any (fun f => jsIncludes f "react") = false := by
      simp only [List.any_eq_false]
      intro x hx
      simp [hnore x hx]
    have hb : (lowerNames files).any (fun f => jsIncludes f "vue") = false := by
      simp only [List.any_eq_false]
      intro x hx
      simp [hnovue x hx]
    simp [determineProjectType, hm, ha, hb, hangm]

theorem framework_specific_beats_generic_witness :
    (lowerNames [⟨"package.json", "u1"⟩, ⟨"Angular.json", "u2"⟩]).contains
        "package.json" = true ∧
    ((∃ f ∈ lowerNames [⟨"package.json", "u1"⟩, ⟨"Angular.json", "u2"⟩],
        jsIncludes f "react" = true) →
      determineProjectType [⟨"package.json", "u1"⟩, ⟨"Angular.json", "u2"⟩] =
        "React Application") ∧
    determineProjectType [⟨"package.json", "u1"⟩, ⟨"Angular.json", "u2"⟩] =
      "Angular Application" :=
  ⟨by decide,
   (framework_specific_beats_generic _ (by decide)).1,
   (framework_specific_beats_generic _ (by decide)).2.2
     (by decide) (by decide) (by decide)⟩

/-- C4: the churn division is NOT guarded.  For the empty commits list
the source computes `averageChurn = 0 / 0 = NaN` (JS), so
`codeSmells = Math.floor(NaN) = NaN` and
`technicalDebt = "NaN days"` — not the "N/A" placeholder the spec
requires (the catch branch is not taken because no exception is thrown).
This holds for every pair of `Math.random()` draws. -/
theorem empty_commits_quality_is_nan (r1 r2 : ℚ) :
    (analyzeCodeQuality (Except.ok []) r1 r2).codeSmells = QField.numv JNum.nan ∧
    (analyzeCodeQuality (Except.ok []) r1 r2).technicalDebt = QField.strv "NaN days" ∧
    (analyzeCodeQuality (Except.ok []) r1 r2).codeSmells ≠ QField.na := by
  refine ⟨rfl, rfl, ?_⟩
  simp [analyzeCodeQuality, averageChurn, jsDivC, jsFloor]

/-- C5 counterexample: in a fully successful run, none of the seven
issued requests is a branches request — the source never fetches the
branches resource — and the assembled activity group of the ready
profile holds exactly the four fields `commits`, `pullRequests`,
`contributors`, `lastUpdate` (type `Activity`), with no branches count
to take a value. -/
theorem no_branches_resource :
    (analyzeRepository okWorld sampleUrl).requests.all
        (fun s => !(jsIncludes s "branches")) = true ∧
    (analyzeRepository okWorld sampleUrl).requests.length = 7 ∧
    (analyzeRepository okWorld sampleUrl).result.toOption.map
        (fun p => (p.status, p.metrics.activity)) =
      some ("ready", ⟨2, 0, 0, "1/1/2024"⟩) := by
  refine ⟨by decide, by decide, rfl⟩

/-- C5 amended: for every successful analysis (all five top-level
fetches succeeded; a failed one aborts the whole run instead of counting
0), the activity group is exactly the lengths of the fetched commit,
pull-request and contributor arrays together with the formatted metadata
update timestamp.  No branches count exists. -/
theorem activity_counts_from_lengths (w : World) (url : String)
    (rd : RepoData) (cs : List FileEntry) (cm : List Commit) (pl cb : List Unit)
    (h1 : w.repoMeta = Except.ok rd) (h2 : w.contents = Except.ok cs)
    (h3 : w.commits = Except.ok cm) (h4 : w.pulls = Except.ok pl)
    (h5 : w.contributors = Except.ok cb) :
    ∃ p : Profile, (analyzeRepository w url).result = Except.ok p ∧
      p.metrics.activity =
        ⟨cm.length, pl.length, cb.length, w.formatDate rd.updated_at⟩ ∧
      p.status = "ready" := by
  rw [analyzeRepository_ok_eq w url rd cs cm pl cb h1 h2 h3 h4 h5]
  exact ⟨_, rfl, rfl, rfl⟩

theorem activity_counts_from_lengths_witness :
    okWorld.commits = Except.ok [⟨some 20⟩, ⟨some 30⟩] ∧
    okWorld.pulls = Except.ok [] ∧
    (∃ p : Profile, (analyzeRepository okWorld sampleUrl).result = Except.ok p ∧
      p.metrics.activity =
        ⟨([(⟨some 20⟩ : Commit), ⟨some 30⟩]).length, ([] : List Unit).length,
         ([] : List Unit).length,
         okWorld.formatDate "2024-01-01T00:00:00Z"⟩ ∧
      p.status = "ready") :=
  ⟨rfl, rfl,
    activity_counts_from_lengths okWorld sampleUrl _ _ _ _ _
      rfl rfl rfl rfl rfl⟩

/-- C6: dependency health.  With no exact `package.json` entry the
result is the zeroed default; with a manifest that fetches and parses,
`total` is the number of distinct keys in the union of the two
dependency groupings (duplicates across groupings counted once),
`outdated = floor(total * 0.15)` and `vulnerable = floor(total * 0.02)`
(equivalently `total * 15 / 100` and `total * 2 / 100` in natural
division); a manifest fetch or parse failure degrades the result to the
zeroed default; and in every case the overall analysis still completes
with `status = "ready"` when the five top-level fetches succeed. -/
theorem dependency_health_spec (contents : List FileEntry)
    (mf : String → Except Unit PackageData) :
    (findPackageJson contents = none →
        (analyzeDependencies contents mf).1 = ⟨0, 0, 0⟩) ∧
    (∀ pj pd, findPackageJson contents = some pj →
        mf pj.download_url = Except.ok pd →
        (analyzeDependencies contents mf).1 =
          ⟨(pd.dependencies.toFinset ∪ pd.devDependencies.toFinset).card,
           (pd.dependencies.toFinset ∪ pd.devDependencies.toFinset).card * 15 / 100,
           (pd.dependencies.toFinset ∪ pd.devDependencies.toFinset).card * 2 / 100⟩) ∧
    (∀ pj e, findPackageJson contents = some pj →
        mf pj.download_url = Except.error e →
        (analyzeDependencies contents mf).1 = ⟨0, 0, 0⟩) ∧
    (∀ w url rd cm pl cb, w.repoMeta = Except.ok rd →
        w.contents = Except.ok contents → w.commits = Except.ok cm →
        w.pulls = Except.ok pl → w.contributors = Except.ok cb →
        w.manifest = mf →
        ∃ p : Profile, (analyzeRepository w url).result = Except.ok p ∧
          p.status = "ready" ∧
          p.metrics.dependencies = (analyzeDependencies contents mf).1) := by
  refine ⟨?_, ?_, ?_, ?_⟩
  · intro h
    simp [analyzeDependencies, h]
  · intro pj pd h hm
    have e1 : (analyzeDependencies contents mf).1 =
        ⟨totalDepsOf pd,
         (Int.floor ((totalDepsOf pd : ℚ) * (15 / 100))).toNat,
         (Int.floor ((totalDepsOf pd : ℚ) * (2 / 100))).toNat⟩ := by
      simp [analyzeDependencies, h, hm]
    have htot : totalDepsOf pd =
        (pd.dependencies.toFinset ∪ pd.devDependencies.toFinset).card := by
      rw [totalDepsOf, ← List.toFinset_append, List.card_toFinset]
    have h15 : (Int.floor ((totalDepsOf pd : ℚ) * (15 / 100))).toNat =
        totalDepsOf pd * 15 / 100 := by
      rw [show ((totalDepsOf pd : ℚ) * (15 / 100)) =
            ((totalDepsOf pd * 15 : ℕ) : ℚ) / ((100 : ℕ) : ℚ) by push_cast; ring,
          Int.floor_toNat, Nat.floor_div_eq_div]
    have h02 : (Int.floor ((totalDepsOf pd : ℚ) * (2 / 100))).toNat =
        totalDepsOf pd * 2 / 100 := by
      rw [show ((totalDepsOf pd : ℚ) * (2 / 100)) =
            ((totalDepsOf pd * 2 : ℕ) : ℚ) / ((100 : ℕ) : ℚ) by push_cast; ring,
          Int.floor_toNat, Nat.floor_div_eq_div]
    rw [e1, h15, h02, htot]
  · intro pj e h hm
    simp [analyzeDependencies, h, hm]
  · intro w url rd cm pl cb h1 h2 h3 h4 h5 h6
    rw [analyzeRepository_ok_eq w url rd contents cm pl cb h1 h2 h3 h4 h5]
    exact ⟨_, rfl, rfl, by rw [h6]⟩

/-- Concrete contents and manifest fetch used to witness the
dependency-health theorem: the key "b" occurs in both groupings and is
counted once, so `total = 3`. -/
def depContents : List FileEntry := [⟨"package.json", "https://raw.test/pkg"⟩]

def depManifestFetch : String → Except Unit PackageData :=
  fun _ => Except.ok ⟨["a", "b"], ["b", "c"]⟩

theorem dependency_health_spec_witness :
    findPackageJson depContents = some ⟨"package.json", "https://raw.test/pkg"⟩ ∧
    depManifestFetch "https://raw.test/pkg" = Except.ok ⟨["a", "b"], ["b", "c"]⟩ ∧
    (analyzeDependencies depContents depManifestFetch).1 =
      ⟨((["a", "b"] : List String).toFinset ∪ (["b", "c"] : List String).toFinset).card,
       ((["a", "b"] : List String).toFinset ∪ (["b", "c"] : List String).toFinset).card
         * 15 / 100,
       ((["a", "b"] : List String).toFinset ∪ (["b", "c"] : List String).toFinset).card
         * 2 / 100⟩ :=
  ⟨rfl, rfl,
    (dependency_health_spec depContents depManifestFetch).2.1
      ⟨"package.json", "https://raw.test/pkg"⟩ ⟨["a", "b"], ["b", "c"]⟩ rfl rfl⟩

/-- C8: `parseRepoUrl` is total — splitting a string never throws, so
the catch branch (`'Invalid repository URL'`) is unreachable and that
message is never the analysis outcome; for a URL with fewer than 5 path
segments the `repo` component is `undefined` (`none`) and flows
unchecked into the first fetch URL, where it renders as the literal text
"undefined". -/
theorem parse_total_and_undefined_flows (url : String) (w : World) :
    (analyzeRepository w url).result ≠ Except.error "Invalid repository URL" ∧
    ((jsSplitSlash url).length < 5 →
      (parseRepoUrl url).2 = none ∧
      (analyzeRepository w url).requests.head? =
        some ("https://api.github.com/repos/" ++
          renderSeg (parseRepoUrl url).1 ++ "/" ++ "undefined")) := by
  refine ⟨(analyzeRepository_first_request w url).2, ?_⟩
  intro hlen
  have h2 : (parseRepoUrl url).2 = none := by
    show (jsSplitSlash url)[4]? = none
    exact List.getElem?_eq_none (by omega)
  refine ⟨h2, ?_⟩
  have hh := (analyzeRepository_first_request w url).1
  rw [hh]
  simp only [baseUrl, apiBase, h2, renderSeg]

theorem parse_total_and_undefined_flows_witness :
    (jsSplitSlash "https://github.com/acme").length < 5 ∧
    ((analyzeRepository okWorld "https://github.com/acme").result ≠
        Except.error "Invalid repository URL" ∧
      ((jsSplitSlash "https://github.com/acme").length < 5 →
        (parseRepoUrl "https://github.com/acme").2 = none ∧
        (analyzeRepository okWorld "https://github.com/acme").requests.head? =
          some ("https://api.github.com/repos/" ++
            renderSeg (parseRepoUrl "https://github.com/acme").1 ++ "/" ++
            "undefined"))) :=
  ⟨by decide, parse_total_and_undefined_flows "https://github.com/acme" okWorld⟩

/-- C9: the manifest lookup is case-sensitive (exact `===` comparison)
while classification lower-cases every name: a contents list with a
differently-cased manifest (and no exact `package.json`) gets the zeroed
dependency metrics — without even issuing the manifest download request
— yet the classifier still takes the manifest branch and labels the
project with one of the four Node-tier labels. -/
theorem manifest_lookup_case_sensitive (contents : List FileEntry)
    (mf : String → Except Unit PackageData)
    (hexact : ∀ f ∈ contents, f.name ≠ "package.json")
    (hlower : ∃ f ∈ contents, jsToLower f.name = "package.json") :
    (analyzeDependencies contents mf).1 = ⟨0, 0, 0⟩ ∧
    (analyzeDependencies contents mf).2 = [] ∧
    determineProjectType contents ∈
      ["React Application", "Vue Application", "Angular Application",
       "Node.js Project"] := by
  have hfind : findPackageJson contents = none := by
    rw [findPackageJson]
    apply List.find?_eq_none.mpr
    intro f hf
    simpa using hexact f hf
  have hm : "package.json" ∈ lowerNames contents := by
    rcases hlower with ⟨f, hf, hfl⟩
    rw [← hfl]
    exact List.mem_map_of_mem _ hf
  refine ⟨by simp [analyzeDependencies, hfind], by simp [analyzeDependencies, hfind], ?_⟩
  by_cases h1 : (lowerNames contents).any (fun f => jsIncludes f "react") = true
  · simp [determineProjectType, hm, h1]
  · rw [Bool.not_eq_true] at h1
    by_cases h2 : (lowerNames contents).any (fun f => jsIncludes f "vue") = true
    · simp [determineProjectType, hm, h1, h2]
    · rw [Bool.not_eq_true] at h2
      by_cases h3 : "angular.json" ∈ lowerNames contents
      · simp [determineProjectType, hm, h1, h2, h3]
      · simp [determineProjectType, hm, h1, h2, h3]

theorem manifest_lookup_case_sensitive_witness :
    (∀ f ∈ [(⟨"Package.JSON", "u"⟩ : FileEntry)], f.name ≠ "package.json") ∧
    (∃ f ∈ [(⟨"Package.JSON", "u"⟩ : FileEntry)], jsToLower f.name = "package.json") ∧
    ((analyzeDependencies [(⟨"Package.JSON", "u"⟩ : FileEntry)]
        (fun _ => Except.error ())).1 = ⟨0, 0, 0⟩ ∧
      (analyzeDependencies [(⟨"Package.JSON", "u"⟩ : FileEntry)]
        (fun _ => Except.error ())).2 = [] ∧
      determineProjectType [(⟨"Package.JSON", "u"⟩ : FileEntry)] ∈
        ["React Application", "Vue Application", "Angular Application",
         "Node.js Project"]) :=
  ⟨by decide, ⟨⟨"Package.JSON", "u"⟩, by decide, by decide⟩,
    manifest_lookup_case_sensitive _ _ (by decide)
      ⟨⟨"Package.JSON", "u"⟩, by decide, by decide⟩⟩

/-- C10: the React and Vue sub-rules are substring matches over every
lower-cased filename (`String.includes`), not presence checks of a
specific config file: any entry whose lower-cased name contains "react"
forces `'React Application'`, and with no "react"-containing name, any
entry containing "vue" forces `'Vue Application'` (the React rule has
precedence as it is tested first). -/
theorem framework_rules_are_substring_matches (files : List FileEntry)
    (hpkg : (lowerNames files).contains "package.json" = true) :
    ((∃ f ∈ files, jsIncludes (jsToLower f.name) "react" = true) →
        determineProjectType files = "React Application") ∧
    ((∀ f ∈ files, jsIncludes (jsToLower f.name) "react" = false) →
      (∃ f ∈ files, jsIncludes (jsToLower f.name) "vue" = true) →
        determineProjectType files = "Vue Application") := by
  have hm : "package.json" ∈ lowerNames files := by simpa using hpkg
  constructor
  · rintro ⟨f, hf, hre⟩
    have ha : (lowerNames files).any (fun g => jsIncludes g "react") = true :=
      List.any_eq_true.mpr ⟨jsToLower f.name, List.mem_map_of_mem _ hf, hre⟩
    simp [determineProjectType, hm, ha]
  · rintro hno ⟨f, hf, hv⟩
    have ha : (lowerNames files).any (fun g => jsIncludes g "react") = false := by
      simp only [List.any_eq_false]
      intro x hx
      rcases List.mem_map.mp hx with ⟨g, hg, rfl⟩
      simp [hno g hg]
    have hb : (lowerNames files).any (fun g => jsIncludes g "vue") = true :=
      List.any_eq_true.mpr ⟨jsToLower f.name, List.mem_map_of_mem _ hf, hv⟩
    simp [determineProjectType, hm, ha, hb]

theorem framework_rules_substring_witness :
    (lowerNames [⟨"package.json", "u1"⟩, ⟨"react-notes.md", "u2"⟩]).contains
        "package.json" = true ∧
    determineProjectType [⟨"package.json", "u1"⟩, ⟨"react-notes.md", "u2"⟩] =
      "React Application" :=
  ⟨by decide,
    (framework_rules_are_substring_matches _ (by decide)).1
      ⟨⟨"react-notes.md", "u2"⟩, by decide, by decide⟩⟩
